import Mathlib

/-!
Shallow embedding of the dDef Solana program (src/rust/lib.rs): a
delayed-execution authorization queue.  Bytes are modelled as `List Nat`
(each entry one byte), a `Pubkey` as its 32 raw bytes, `i64` values as
`Int` with explicit twos-complement reduction modulo 2^64 at the
serialization boundary, and the borsh wire format (as used by the
`BorshSerialize`/`BorshDeserialize` derives and `try_from_slice`) as
explicit byte-level readers and writers.  Fallible Rust code returns
`Except`; a Rust panic (slice-index out of bounds / arithmetic overflow)
is a distinct outcome `RunError.rustPanic`, separate from the
`ProgramError` results.
-/

namespace DDef

/-- A public key: its 32 raw bytes. -/
abbrev Pubkey := List Nat

/-- The `ProgramError` values this program can produce. -/
inductive ProgramError where
  | invalidInstructionData
  | invalidAccountData
  | borshIoError
deriving DecidableEq

/-- Outcome of running the entrypoint: either a Rust panic (the process
aborts) or a `ProgramError` returned to the host. -/
inductive RunError where
  | rustPanic
  | program (e : ProgramError)
deriving DecidableEq

/-- Modelled from the spec: the `CriticalFunction` enum is referenced by
`lib.rs` but its declaration is not among the provided sources.  Per the
spec it is the tagged variant `WithdrawAllFunds{amount, target}` or
`DeleteAccount{..}` with minimal placeholder fields ("implementers must
treat these as minimal placeholder variants"). -/
inductive CriticalFunction where
  | WithdrawAllFunds (amount : Nat) (target_pubkey : Pubkey)
  | DeleteAccount
deriving DecidableEq

/-- `QueuedFunction` from lib.rs. -/
structure QueuedFunction where
  function : CriticalFunction
  execution_time : Int
  cancelled : Bool
  initiator : Pubkey
  delegate : Option Pubkey
deriving DecidableEq

/-- `ContractState` from lib.rs. -/
structure ContractState where
  queued_functions : List QueuedFunction
  delegate : Option Pubkey
deriving DecidableEq

/-- `DEFAULT_DELAY_FOR_CRITICAL_FUNCTION` from lib.rs (30 time units). -/
def DEFAULT_DELAY_FOR_CRITICAL_FUNCTION : Int := 30

/-- The `Instruction` enum from lib.rs. -/
inductive Instruction where
  | QueueCriticalFunction (function : CriticalFunction) (delay_in_seconds : Int)
  | CancelFunction (function_index : Nat)
  | CheckExecution
  | SetDelegate (delegate_pubkey : Pubkey)
deriving DecidableEq

/-! ### Little-endian integers -/

/-- `w`-byte little-endian encoding of a natural number. -/
def natToLE : Nat → Nat → List Nat
  | 0, _ => []
  | w + 1, n => n % 256 :: natToLE w (n / 256)

/-- Value of a little-endian byte list. -/
def leToNat : List Nat → Nat
  | [] => 0
  | b :: r => b + 256 * leToNat r

/-- Twos-complement image of an `i64` as an unsigned 64-bit value
(18446744073709551616 = 2^64). -/
def i64ToNat64 (x : Int) : Nat := (x % 18446744073709551616).toNat

/-- 8-byte little-endian encoding of an `i64`. -/
def i64ToLE (x : Int) : List Nat := natToLE 8 (i64ToNat64 x)

/-- Signed interpretation of an unsigned 64-bit value
(9223372036854775808 = 2^63). -/
def nat64ToI64 (n : Nat) : Int :=
  if n < 9223372036854775808 then (n : Int) else (n : Int) - 18446744073709551616

/-! ### Byte readers (the borsh / byteorder deserialization primitives) -/

/-- Consume `k` bytes; fails (like an UnexpectedEof io error) when fewer
are available. -/
def readBytes (k : Nat) (b : List Nat) : Option (List Nat × List Nat) :=
  if k ≤ b.length then some (b.take k, b.drop k) else none

/-- `read_u64::<LittleEndian>`. -/
def readU64LE (b : List Nat) : Option (Nat × List Nat) :=
  (readBytes 8 b).map (fun p => (leToNat p.1, p.2))

/-- borsh `u32` (used for `Vec` lengths). -/
def readU32LE (b : List Nat) : Option (Nat × List Nat) :=
  (readBytes 4 b).map (fun p => (leToNat p.1, p.2))

/-- `read_i64::<LittleEndian>` / borsh `i64`. -/
def readI64LE (b : List Nat) : Option (Int × List Nat) :=
  (readU64LE b).map (fun p => (nat64ToI64 p.1, p.2))

/-- borsh `bool`: one byte, 0 or 1; anything else is invalid data. -/
def readBool (b : List Nat) : Option (Bool × List Nat) :=
  match b with
  | 0 :: r => some (false, r)
  | 1 :: r => some (true, r)
  | _ => none

/-- borsh `Pubkey`: 32 raw bytes. -/
def readPubkey (b : List Nat) : Option (Pubkey × List Nat) := readBytes 32 b

/-- borsh `Option<Pubkey>`: tag byte 0 (None) or 1 (Some) then the key. -/
def readOptionPubkey (b : List Nat) : Option (Option Pubkey × List Nat) :=
  match b with
  | 0 :: r => some (none, r)
  | 1 :: r => (readPubkey r).map (fun p => (some p.1, p.2))
  | _ => none

/-- borsh deserialization of `CriticalFunction`: variant index byte, then
the variant fields. -/
def readCriticalFunction (b : List Nat) : Option (CriticalFunction × List Nat) :=
  match b with
  | 0 :: r => do
      let (amount, r1) ← readU64LE r
      let (t, r2) ← readPubkey r1
      some (CriticalFunction.WithdrawAllFunds amount t, r2)
  | 1 :: r => some (CriticalFunction.DeleteAccount, r)
  | _ => none

/-- borsh deserialization of `QueuedFunction`: fields in declaration
order. -/
def readQueuedFunction (b : List Nat) : Option (QueuedFunction × List Nat) := do
  let (f, b1) ← readCriticalFunction b
  let (t, b2) ← readI64LE b1
  let (c, b3) ← readBool b2
  let (i, b4) ← readPubkey b3
  let (d, b5) ← readOptionPubkey b4
  some (⟨f, t, c, i, d⟩, b5)

/-- Read `n` consecutive `QueuedFunction` records. -/
def readQFList : Nat → List Nat → Option (List QueuedFunction × List Nat)
  | 0, b => some ([], b)
  | n + 1, b => do
      let (q, b1) ← readQueuedFunction b
      let (qs, b2) ← readQFList n b1
      some (q :: qs, b2)

/-- borsh deserialization of `ContractState`: `u32` length, the records,
then the account-level delegate. -/
def readContractState (b : List Nat) : Option (ContractState × List Nat) := do
  let (len, b1) ← readU32LE b
  let (qs, b2) ← readQFList len b1
  let (d, b3) ← readOptionPubkey b2
  some (⟨qs, d⟩, b3)

/-! ### Serialization -/

/-- borsh byte of a `bool`. -/
def boolByte (b : Bool) : Nat := if b then 1 else 0

/-- borsh encoding of `Option<Pubkey>`. -/
def serOptionPubkey : Option Pubkey → List Nat
  | none => [0]
  | some k => 1 :: k

/-- borsh serialization of `CriticalFunction`. -/
def serCriticalFunction : CriticalFunction → List Nat
  | .WithdrawAllFunds amount target_pubkey => 0 :: (natToLE 8 amount ++ target_pubkey)
  | .DeleteAccount => [1]

/-- borsh serialization of `QueuedFunction`. -/
def serQueuedFunction (q : QueuedFunction) : List Nat :=
  serCriticalFunction q.function ++ i64ToLE q.execution_time ++
    [boolByte q.cancelled] ++ q.initiator ++ serOptionPubkey q.delegate

/-- Concatenated serialization of a record list. -/
def serQFList : List QueuedFunction → List Nat
  | [] => []
  | q :: rest => serQueuedFunction q ++ serQFList rest

/-- borsh serialization of `ContractState`. -/
def serContractState (s : ContractState) : List Nat :=
  natToLE 4 s.queued_functions.length ++ serQFList s.queued_functions ++
    serOptionPubkey s.delegate

/-- `ContractState::try_from_slice`: deserialize and require that every
byte of the slice is consumed ("Not all bytes read" is an error); any
failure surfaces as `ProgramError::BorshIoError`. -/
def ContractState.try_from_slice (b : List Nat) : Except ProgramError ContractState :=
  match readContractState b with
  | some (s, []) => .ok s
  | _ => .error .borshIoError

/-- `CriticalFunction::try_from_slice`, with the same full-consumption
requirement. -/
def CriticalFunction.try_from_slice (b : List Nat) : Except ProgramError CriticalFunction :=
  match readCriticalFunction b with
  | some (f, []) => .ok f
  | _ => .error .borshIoError

/-! ### Accounts and the operations of lib.rs -/

/-- The slot-0 ledger storage account: its public key and its data
buffer (fixed length, allocated by the host). -/
structure AccountInfo where
  key : Pubkey
  data : List Nat
deriving DecidableEq

/-- The state `queue_function` starts from when the account data is
empty. -/
def emptyState : ContractState := ⟨[], none⟩

/-- The load performed by `queue_function` (lib.rs lines 96-103): a
zero-length account yields the empty state, otherwise
`try_from_slice` on the stored bytes. -/
def loadForQueue (account : AccountInfo) : Except ProgramError ContractState :=
  if account.data.length > 0 then ContractState.try_from_slice account.data
  else .ok emptyState

/-- `state.serialize(&mut &mut account.data.borrow_mut()[..])`: writes
the serialized bytes over the front of the fixed-length buffer, leaving
bytes past the serialized length unchanged; errors (WriteZero, surfaced
as `BorshIoError`) when the buffer is too small. -/
def saveInto (account : AccountInfo) (state : ContractState) : Except ProgramError AccountInfo :=
  if (serContractState state).length ≤ account.data.length then
    .ok ⟨account.key,
      serContractState state ++ account.data.drop (serContractState state).length⟩
  else .error .borshIoError

/-- The pure state transition inside `queue_function` (lib.rs lines
104-120): append a `QueuedFunction` whose `execution_time` is
`clock.unix_timestamp + delay_in_seconds`, whose `initiator` is the
slot-0 account key, and whose per-action delegate is `None`. -/
def queueStep (key : Pubkey) (current_time : Int) (function : CriticalFunction)
    (delay_in_seconds : Int) (state : ContractState) : ContractState :=
  { state with
    queued_functions := state.queued_functions ++
      [⟨function, current_time + delay_in_seconds, false, key, none⟩] }

/-- `queue_function` from lib.rs: load (with the empty-account special
case), append the new entry, save. -/
def queue_function (account : AccountInfo) (clockNow : Int)
    (function : CriticalFunction) (delay_in_seconds : Int) :
    Except ProgramError AccountInfo :=
  match loadForQueue account with
  | .error e => .error e
  | .ok state => saveInto account (queueStep account.key clockNow function delay_in_seconds state)

/-- The `CancelFunction` body (lib.rs lines 156-169): range check, then
the authorization gate (`*account.key` must equal the entry field
`initiator`, or `Some(*account.key)` the entry field per-action `delegate`),
then flip `cancelled` to true. -/
def cancelStep (key : Pubkey) (function_index : Nat) (state : ContractState) :
    Except ProgramError ContractState :=
  if h : function_index < state.queued_functions.length then
    let queued_func := state.queued_functions[function_index]
    if key ≠ queued_func.initiator ∧ some key ≠ queued_func.delegate then
      .error .invalidAccountData
    else
      .ok { state with
        queued_functions := state.queued_functions.set function_index
          { queued_func with cancelled := true } }
  else .error .invalidInstructionData

/-- An entry is due at `now` when it is not cancelled and its
`execution_time` has passed (lib.rs line 188). -/
def dueNow (now : Int) (f : QueuedFunction) : Bool :=
  !f.cancelled && decide (f.execution_time ≤ now)

/-- The `CheckExecution` scan (lib.rs lines 186-212): walk the queue
with an ascending index counter and collect the indices of the due
entries (both variants push their index into `functions_to_remove`). -/
def collectDue (now : Int) : List QueuedFunction → Nat → List Nat
  | [], _ => []
  | f :: fs, index =>
      if dueNow now f then index :: collectDue now fs (index + 1)
      else collectDue now fs (index + 1)

/-- The removal loop (lib.rs lines 215-217): remove the collected
indices in reverse (descending) order. -/
def removeDescending (l : List QueuedFunction) (idxs : List Nat) : List QueuedFunction :=
  idxs.reverse.foldl (fun acc i => acc.eraseIdx i) l

/-- The whole sweep transformation on the queue. -/
def sweepQueue (now : Int) (l : List QueuedFunction) : List QueuedFunction :=
  removeDescending l (collectDue now l 0)

/-- The dispatch of `process_instruction` (lib.rs lines 135-221) on an
already-decoded instruction.  `clockNow` is the trusted
`Clock::unix_timestamp` read from slot 1.  An `.error` result means the
call aborts with no write: `serialize` into the account buffer is the
single point of commit and is never reached on an earlier failure. -/
def dispatch (account : AccountInfo) (clockNow : Int) :
    Instruction → Except ProgramError AccountInfo
  | .QueueCriticalFunction function _ =>
      queue_function account clockNow function
        (match function with
          | .WithdrawAllFunds _ _ => DEFAULT_DELAY_FOR_CRITICAL_FUNCTION
          | .DeleteAccount => DEFAULT_DELAY_FOR_CRITICAL_FUNCTION)
  | .CancelFunction function_index =>
      match ContractState.try_from_slice account.data with
      | .error e => .error e
      | .ok state =>
          match cancelStep account.key function_index state with
          | .error e => .error e
          | .ok state1 => saveInto account state1
  | .SetDelegate delegate_pubkey =>
      match ContractState.try_from_slice account.data with
      | .error e => .error e
      | .ok state => saveInto account { state with delegate := some delegate_pubkey }
  | .CheckExecution =>
      match ContractState.try_from_slice account.data with
      | .error e => .error e
      | .ok state =>
          saveInto account
            { state with queued_functions := sweepQueue clockNow state.queued_functions }

/-- `Instruction::unpack` (lib.rs lines 53-86).  Faithful to the Rust
semantics, including the two panic sites:
tag 0 evaluates `rest[rest.len() - 8..]` after a successful
`CriticalFunction::try_from_slice(&rest)`, which panics when
`rest.len() < 8` (subtract-with-overflow / slice range); tag 3 evaluates
`&rest[0..32]`, which panics when `rest.len() < 32`.  On a full 32-byte
slice `Pubkey::try_from` cannot fail, and on a full 8-byte slice
`read_i64` cannot fail, so those `map_err` arms are dead. -/
def Instruction.unpack (input : List Nat) : Except RunError Instruction :=
  match input with
  | [] => .error (.program .invalidInstructionData)
  | tag :: rest =>
      match tag with
      | 0 =>
          match CriticalFunction.try_from_slice rest with
          | .error e => .error (.program e)
          | .ok function =>
              if rest.length < 8 then .error .rustPanic
              else
                .ok (.QueueCriticalFunction function
                  (nat64ToI64 (leToNat (rest.drop (rest.length - 8)))))
      | 1 =>
          match readU64LE rest with
          | some (n, _) => .ok (.CancelFunction n)
          | none => .error (.program .invalidInstructionData)
      | 2 => .ok .CheckExecution
      | 3 =>
          if rest.length < 32 then .error .rustPanic
          else .ok (.SetDelegate (rest.take 32))
      | _ => .error (.program .invalidInstructionData)

/-- `process_instruction` end to end: unpack, then dispatch. -/
def process_instruction (account : AccountInfo) (clockNow : Int)
    (instruction_data : List Nat) : Except RunError AccountInfo :=
  match Instruction.unpack instruction_data with
  | .error e => .error e
  | .ok instruction =>
      match dispatch account clockNow instruction with
      | .error e => .error (.program e)
      | .ok a => .ok a

/-! ### Well-formed states (the range side conditions under which the
serialized form is faithful) -/

/-- A key is well formed when it consists of exactly 32 bytes. -/
def wfPubkey (k : Pubkey) : Bool := k.length == 32

/-- Well-formedness of an optional key. -/
def wfOptionKey : Option Pubkey → Bool
  | none => true
  | some k => wfPubkey k

/-- Well-formedness of a `CriticalFunction`: `amount` fits in a `u64`,
the target key has 32 bytes. -/
def wfCriticalFunction : CriticalFunction → Bool
  | .WithdrawAllFunds amount target_pubkey =>
      decide (amount < 18446744073709551616) && wfPubkey target_pubkey
  | .DeleteAccount => true

/-- Well-formedness of a `QueuedFunction`: the time fits in an `i64`,
all keys have 32 bytes. -/
def wfQueuedFunction (q : QueuedFunction) : Bool :=
  wfCriticalFunction q.function
    && decide (-9223372036854775808 ≤ q.execution_time)
    && decide (q.execution_time < 9223372036854775808)
    && wfPubkey q.initiator
    && wfOptionKey q.delegate

/-- Well-formedness of a `ContractState`: the queue length fits in the
borsh `u32` length prefix and every record is well formed. -/
def wfContractState (s : ContractState) : Bool :=
  decide (s.queued_functions.length < 4294967296)
    && s.queued_functions.all wfQueuedFunction
    && wfOptionKey s.delegate

/-! ### Round-trip lemmas for the serialization model -/

theorem natToLE_length (w n : Nat) : (natToLE w n).length = w := by
  induction w generalizing n with
  | zero => rfl
  | succ w ih => simp [natToLE, ih]

theorem leToNat_natToLE (w n : Nat) : leToNat (natToLE w n) = n % 256 ^ w := by
  induction w generalizing n with
  | zero => simp [natToLE, leToNat, Nat.mod_one]
  | succ w ih =>
      rw [natToLE, leToNat, ih, Nat.pow_succ, Nat.mul_comm (256 ^ w) 256, Nat.mod_mul]

theorem leToNat_natToLE_of_lt {w n : Nat} (h : n < 256 ^ w) :
    leToNat (natToLE w n) = n := by
  rw [leToNat_natToLE, Nat.mod_eq_of_lt h]

theorem readBytes_exact {k : Nat} {t : List Nat} (h : t.length = k) (r : List Nat) :
    readBytes k (t ++ r) = some (t, r) := by
  subst h
  rw [readBytes, if_pos (by simp)]
  rw [List.take_left, List.drop_left]

theorem readU64LE_exact {n : Nat} (h : n < 18446744073709551616) (r : List Nat) :
    readU64LE (natToLE 8 n ++ r) = some (n, r) := by
  have h8 : n < 256 ^ 8 := by norm_num at h ⊢; exact h
  rw [readU64LE, readBytes_exact (natToLE_length 8 n)]
  simp [leToNat_natToLE_of_lt h8]

theorem readU32LE_exact {n : Nat} (h : n < 4294967296) (r : List Nat) :
    readU32LE (natToLE 4 n ++ r) = some (n, r) := by
  have h4 : n < 256 ^ 4 := by norm_num at h ⊢; exact h
  rw [readU32LE, readBytes_exact (natToLE_length 4 n)]
  simp [leToNat_natToLE_of_lt h4]

theorem i64ToNat64_lt (x : Int) : i64ToNat64 x < 18446744073709551616 := by
  rw [i64ToNat64]
  have h1 : (0:Int) ≤ x % 18446744073709551616 := Int.emod_nonneg x (by norm_num)
  have h2 : x % 18446744073709551616 < 18446744073709551616 :=
    Int.emod_lt_of_pos x (by norm_num)
  omega

theorem nat64ToI64_i64ToNat64 {x : Int} (h1 : -9223372036854775808 ≤ x)
    (h2 : x < 9223372036854775808) : nat64ToI64 (i64ToNat64 x) = x := by
  rw [i64ToNat64, nat64ToI64]
  have h3 : (0:Int) ≤ x % 18446744073709551616 := Int.emod_nonneg x (by norm_num)
  have h4 : x % 18446744073709551616 < 18446744073709551616 :=
    Int.emod_lt_of_pos x (by norm_num)
  have h5 : x % 18446744073709551616 = x - 18446744073709551616 * (x / 18446744073709551616) :=
    Int.emod_def x 18446744073709551616
  split <;> omega

theorem readI64LE_exact {x : Int} (h1 : -9223372036854775808 ≤ x)
    (h2 : x < 9223372036854775808) (r : List Nat) :
    readI64LE (i64ToLE x ++ r) = some (x, r) := by
  rw [readI64LE, i64ToLE, readU64LE_exact (i64ToNat64_lt x)]
  simp [nat64ToI64_i64ToNat64 h1 h2]

theorem readBool_exact (b : Bool) (r : List Nat) :
    readBool (boolByte b :: r) = some (b, r) := by
  cases b <;> rfl

theorem readPubkey_exact {k : Pubkey} (h : wfPubkey k = true) (r : List Nat) :
    readPubkey (k ++ r) = some (k, r) := by
  rw [wfPubkey, Nat.beq_eq_true_eq] at h
  exact readBytes_exact h r

theorem readOptionPubkey_exact {d : Option Pubkey} (h : wfOptionKey d = true)
    (r : List Nat) : readOptionPubkey (serOptionPubkey d ++ r) = some (d, r) := by
  cases d with
  | none => rfl
  | some k =>
      rw [wfOptionKey] at h
      rw [serOptionPubkey, List.cons_append, readOptionPubkey, readPubkey_exact h r]
      rfl

theorem readCriticalFunction_exact {f : CriticalFunction}
    (h : wfCriticalFunction f = true) (r : List Nat) :
    readCriticalFunction (serCriticalFunction f ++ r) = some (f, r) := by
  cases f with
  | DeleteAccount => rfl
  | WithdrawAllFunds amount target_pubkey =>
      rw [wfCriticalFunction, Bool.and_eq_true, decide_eq_true_eq] at h
      simp only [serCriticalFunction, List.cons_append, List.append_assoc,
        readCriticalFunction, Option.bind_eq_bind, readU64LE_exact h.1,
        Option.some_bind, readPubkey_exact h.2]

theorem readQueuedFunction_exact {q : QueuedFunction}
    (h : wfQueuedFunction q = true) (r : List Nat) :
    readQueuedFunction (serQueuedFunction q ++ r) = some (q, r) := by
  rw [wfQueuedFunction, Bool.and_eq_true, Bool.and_eq_true, Bool.and_eq_true,
    Bool.and_eq_true, decide_eq_true_eq, decide_eq_true_eq] at h
  obtain ⟨⟨⟨⟨hf, ht1⟩, ht2⟩, hi⟩, hd⟩ := h
  simp only [serQueuedFunction, List.append_assoc, List.cons_append,
    List.singleton_append, List.nil_append, readQueuedFunction, Option.bind_eq_bind,
    readCriticalFunction_exact hf, Option.some_bind, readI64LE_exact ht1 ht2,
    readBool_exact, readPubkey_exact hi, readOptionPubkey_exact hd]

theorem readQFList_exact {l : List QueuedFunction}
    (h : l.all wfQueuedFunction = true) (r : List Nat) :
    readQFList l.length (serQFList l ++ r) = some (l, r) := by
  induction l with
  | nil => rfl
  | cons q qs ih =>
      rw [List.all_cons, Bool.and_eq_true] at h
      simp only [serQFList, List.length_cons, readQFList, List.append_assoc,
        Option.bind_eq_bind, readQueuedFunction_exact h.1, Option.some_bind,
        ih h.2]

theorem readContractState_exact {s : ContractState}
    (h : wfContractState s = true) (r : List Nat) :
    readContractState (serContractState s ++ r) = some (s, r) := by
  rw [wfContractState, Bool.and_eq_true, Bool.and_eq_true, decide_eq_true_eq] at h
  obtain ⟨⟨hlen, hall⟩, hd⟩ := h
  simp only [serContractState, List.append_assoc, readContractState,
    Option.bind_eq_bind, readU32LE_exact hlen, Option.some_bind,
    readQFList_exact hall, readOptionPubkey_exact hd]

theorem try_from_slice_serContractState {s : ContractState}
    (h : wfContractState s = true) :
    ContractState.try_from_slice (serContractState s) = .ok s := by
  rw [ContractState.try_from_slice]
  have he := readContractState_exact h []
  rw [List.append_nil] at he
  rw [he]

/-! ### The sweep: descending removal of the collected indices is a
filter -/

theorem collectDue_succ (now : Int) (l : List QueuedFunction) (i : Nat) :
    collectDue now l (i + 1) = (collectDue now l i).map (· + 1) := by
  induction l generalizing i with
  | nil => rfl
  | cons f fs ih =>
      by_cases hf : dueNow now f = true
      · rw [collectDue, if_pos hf, collectDue, if_pos hf, List.map_cons, ih (i + 1)]
      · rw [collectDue, if_neg hf, collectDue, if_neg hf, ih (i + 1)]

theorem foldl_eraseIdx_map_succ (J : List Nat) (x : QueuedFunction)
    (xs : List QueuedFunction) :
    (J.map (· + 1)).foldl (fun acc i => acc.eraseIdx i) (x :: xs)
      = x :: J.foldl (fun acc i => acc.eraseIdx i) xs := by
  induction J generalizing xs with
  | nil => rfl
  | cons j J ih =>
      rw [List.map_cons, List.foldl_cons, List.foldl_cons, List.eraseIdx_cons_succ, ih]

theorem removeDescending_map_succ (x : QueuedFunction) (xs : List QueuedFunction)
    (I : List Nat) :
    removeDescending (x :: xs) (I.map (· + 1)) = x :: removeDescending xs I := by
  rw [removeDescending, removeDescending, ← List.map_reverse, foldl_eraseIdx_map_succ]

theorem removeDescending_zero_cons (x : QueuedFunction) (xs : List QueuedFunction)
    (I : List Nat) :
    removeDescending (x :: xs) (0 :: I.map (· + 1)) = removeDescending xs I := by
  rw [removeDescending, removeDescending, List.reverse_cons, ← List.map_reverse,
    List.foldl_append, foldl_eraseIdx_map_succ, List.foldl_cons]
  rfl

theorem sweepQueue_eq_filter (now : Int) (l : List QueuedFunction) :
    sweepQueue now l = l.filter (fun f => !dueNow now f) := by
  induction l with
  | nil => rfl
  | cons x xs ih =>
      by_cases hx : dueNow now x = true
      · rw [sweepQueue, collectDue, if_pos hx, collectDue_succ,
          removeDescending_zero_cons, ← sweepQueue, ih, List.filter_cons]
        simp [hx]
      · rw [sweepQueue, collectDue, if_neg hx, collectDue_succ,
          removeDescending_map_succ, ← sweepQueue, ih, List.filter_cons]
        simp [hx]

/-! ### Cancellation helper lemmas -/

theorem cancelStep_authorized {key : Pubkey} {function_index : Nat}
    {s : ContractState} (h : function_index < s.queued_functions.length)
    (hauth : key = (s.queued_functions[function_index]).initiator ∨
      some key = (s.queued_functions[function_index]).delegate) :
    cancelStep key function_index s = .ok { s with
      queued_functions := s.queued_functions.set function_index
        { s.queued_functions[function_index] with cancelled := true } } := by
  rw [cancelStep, dif_pos h, if_neg]
  exact fun hc => hauth.elim (fun he => hc.1 he) (fun he => hc.2 he)

theorem cancelStep_unauthorized {key : Pubkey} {function_index : Nat}
    {s : ContractState} (h : function_index < s.queued_functions.length)
    (h1 : key ≠ (s.queued_functions[function_index]).initiator)
    (h2 : some key ≠ (s.queued_functions[function_index]).delegate) :
    cancelStep key function_index s = .error .invalidAccountData := by
  rw [cancelStep, dif_pos h, if_pos ⟨h1, h2⟩]

theorem cancelStep_out_of_range {key : Pubkey} {function_index : Nat}
    {s : ContractState} (h : s.queued_functions.length ≤ function_index) :
    cancelStep key function_index s = .error .invalidInstructionData := by
  rw [cancelStep, dif_neg (by omega)]

/-- A convenience variant of `cancelStep_authorized` with the state and
the selected entry given componentwise, so that successive rewrites
compose syntactically. -/
theorem cancelStep_ok {key : Pubkey} {function_index : Nat}
    {l : List QueuedFunction} {d : Option Pubkey} {e : QueuedFunction}
    (h : function_index < l.length) (hge : l[function_index] = e)
    (hauth : key = e.initiator ∨ some key = e.delegate) :
    cancelStep key function_index ⟨l, d⟩
      = .ok ⟨l.set function_index { e with cancelled := true }, d⟩ := by
  subst hge
  exact cancelStep_authorized h hauth

/-! ### Concrete fixtures used by the witnesses and counterexamples -/

/-- A sample 32-byte key (an initiator). -/
def keyA : Pubkey := List.replicate 32 1

/-- A second, distinct 32-byte key (an unrelated caller). -/
def keyB : Pubkey := List.replicate 32 2

/-- A third 32-byte key (used as a delegate). -/
def keyD : Pubkey := List.replicate 32 3

/-- A queued `DeleteAccount` due at time 100, initiated by `keyA`,
with no per-action delegate. -/
def qfA : QueuedFunction := ⟨.DeleteAccount, 100, false, keyA, none⟩

/-- A state holding exactly the entry `qfA`, no account-level
delegate. -/
def stA : ContractState := ⟨[qfA], none⟩

/-- The storage account of `keyA` holding exactly the serialization of
`stA`. -/
def accA : AccountInfo := ⟨keyA, serContractState stA⟩

/-- The same stored bytes but with `keyB` as the slot-0 key. -/
def accB : AccountInfo := ⟨keyB, serContractState stA⟩

/-- Like `stA` but with `keyD` installed as the account-level
delegate. -/
def stDel : ContractState := ⟨[qfA], some keyD⟩

/-- A state whose single entry carries `keyD` as its per-action
delegate. -/
def stPA : ContractState := ⟨[⟨.DeleteAccount, 100, false, keyA, some keyD⟩], none⟩

/-- An account with zero-length data. -/
def accEmpty : AccountInfo := ⟨keyA, []⟩

/-- The empty queue state. -/
def stE : ContractState := ⟨[], none⟩

/-- An account holding exactly the serialization of the empty state. -/
def accE : AccountInfo := ⟨keyA, serContractState stE⟩

/-! ### The claims -/

/-- Claim C1: for every `QueueCriticalFunction` call, the delay actually
applied is the fixed constant `DEFAULT_DELAY_FOR_CRITICAL_FUNCTION`
(30 time units for both `WithdrawAllFunds` and `DeleteAccount`), the
caller-supplied delay value is ignored entirely, and the entry handed to
the save step has `execution_time = clockNow + 30`; consequently two
queue calls differing only in the requested delay produce identical
results for the same function kind and the same `clockNow`. -/
theorem C1_queue_fixed_delay (account : AccountInfo) (clockNow : Int)
    (f : CriticalFunction) (d1 d2 : Int) (key : Pubkey) (s : ContractState) :
    dispatch account clockNow (.QueueCriticalFunction f d1)
      = dispatch account clockNow (.QueueCriticalFunction f d2)
    ∧ dispatch account clockNow (.QueueCriticalFunction f d1)
      = queue_function account clockNow f DEFAULT_DELAY_FOR_CRITICAL_FUNCTION
    ∧ (queueStep key clockNow f DEFAULT_DELAY_FOR_CRITICAL_FUNCTION s).queued_functions
      = s.queued_functions ++ [⟨f, clockNow + 30, false, key, none⟩] := by
  cases f <;> exact ⟨rfl, rfl, rfl⟩

/-- Claim C2: for every state and every current time `now`, the sweep
performed by `CheckExecution` removes from the queue exactly the entries
with `cancelled = false` and `execution_time ≤ now`, preserves the
relative order of all remaining entries, and leaves entries that are not
yet due or already cancelled untouched: descending-index removal of the
collected due indices equals a filter keeping the non-due entries. -/
theorem C2_sweep_removes_due (now : Int) (l : List QueuedFunction) :
    sweepQueue now l
      = l.filter (fun f => !(!f.cancelled && decide (f.execution_time ≤ now))) :=
  sweepQueue_eq_filter now l

/-- Claim C3: cancellation succeeds only for a caller key equal to the
entry initiator or to the entry per-action delegate; a caller who is
neither receives `InvalidAccountData` (the authorization error), both
from the cancel step and from the whole dispatched `CancelFunction`
call, so the save step is never reached and the persisted state is
unmodified (an `.error` result carries no written account). -/
theorem C3_cancel_unauthorized (key : Pubkey) (idx : Nat) (s : ContractState)
    (h : idx < s.queued_functions.length)
    (h1 : key ≠ (s.queued_functions[idx]).initiator)
    (h2 : some key ≠ (s.queued_functions[idx]).delegate) :
    cancelStep key idx s = .error .invalidAccountData
    ∧ ∀ account clockNow, account.key = key →
        ContractState.try_from_slice account.data = .ok s →
        dispatch account clockNow (.CancelFunction idx) = .error .invalidAccountData := by
  refine ⟨cancelStep_unauthorized h h1 h2, fun account clockNow hk hload => ?_⟩
  simp only [dispatch, hload, hk, cancelStep_unauthorized h h1 h2]

/-- Claim C3 witness: initiator `keyA` queued `qfA`; caller `keyB`
(neither initiator nor delegate) is rejected. -/
theorem C3_witness :
    cancelStep keyB 0 stA = .error .invalidAccountData
    ∧ dispatch accB 0 (.CancelFunction 0) = .error .invalidAccountData := by
  have h := C3_cancel_unauthorized keyB 0 stA (by decide) (by decide) (by decide)
  exact ⟨h.1, h.2 accB 0 rfl rfl⟩

/-- Claim C4: the initiator recorded by the queue step is the slot-0
account key, and cancellation compares that same slot-0 key against the
stored initiator, so an entry queued and later cancelled through the
same storage account always passes the authorization gate. -/
theorem C4_initiator_is_slot0_key (key : Pubkey) (clockNow : Int)
    (f : CriticalFunction) (d : Int) (s : ContractState) :
    ∃ s2, cancelStep key s.queued_functions.length
      (queueStep key clockNow f d s) = .ok s2 := by
  have hlt : s.queued_functions.length
      < (queueStep key clockNow f d s).queued_functions.length := by
    simp [queueStep]
  have hget : (queueStep key clockNow f d s).queued_functions[s.queued_functions.length]
      = ⟨f, clockNow + d, false, key, none⟩ := by
    simp only [queueStep]
    exact List.getElem_concat_length _ _ _ rfl _
  exact ⟨_, cancelStep_authorized hlt (Or.inl (by rw [hget]))⟩

/-- Claim C5 counterexample: with `keyD` installed as the account-level
delegate and the entry carrying no per-action delegate, a cancel by
`keyD` is rejected with the authorization error, both at the cancel step
and through dispatch: the account-level delegate is not consulted. -/
theorem C5_counterexample :
    stDel.delegate = some keyD
    ∧ cancelStep keyD 0 stDel = .error .invalidAccountData
    ∧ dispatch ⟨keyD, serContractState stDel⟩ 0 (.CancelFunction 0)
      = .error .invalidAccountData :=
  ⟨rfl, rfl, rfl⟩

/-- Claim C5 (amended): during cancellation only the initiator and the
per-action delegate field are checked; a caller matching the per-action
delegate is authorized, while a caller matching only the account-level
delegate is rejected with the authorization error. -/
theorem C5_per_action_delegate_only (key : Pubkey) (idx : Nat) (s : ContractState)
    (h : idx < s.queued_functions.length) :
    ((s.queued_functions[idx]).delegate = some key →
      cancelStep key idx s = .ok { s with
        queued_functions := s.queued_functions.set idx
          { s.queued_functions[idx] with cancelled := true } })
    ∧ (s.delegate = some key → key ≠ (s.queued_functions[idx]).initiator →
        (s.queued_functions[idx]).delegate ≠ some key →
        cancelStep key idx s = .error .invalidAccountData) := by
  constructor
  · intro hd
    exact cancelStep_authorized h (Or.inr hd.symm)
  · intro _ h1 h2
    exact cancelStep_unauthorized h h1 (fun he => h2 he.symm)

/-- Claim C5 witness: a caller matching the per-action delegate `keyD`
cancels successfully. -/
theorem C5_witness :
    cancelStep keyD 0 stPA
      = .ok ⟨[⟨.DeleteAccount, 100, true, keyA, some keyD⟩], none⟩ :=
  (C5_per_action_delegate_only keyD 0 stPA (by decide)).1 rfl

/-- Claim C6: for every index at or beyond the queue length, cancel
returns the range error `InvalidInstructionData`, both at the cancel
step and through dispatch, and since the call fails before the save
step the persisted state is byte-for-byte unchanged (an `.error`
result carries no written account). -/
theorem C6_cancel_out_of_range (key : Pubkey) (idx : Nat) (s : ContractState)
    (h : s.queued_functions.length ≤ idx) :
    cancelStep key idx s = .error .invalidInstructionData
    ∧ ∀ account clockNow, ContractState.try_from_slice account.data = .ok s →
        dispatch account clockNow (.CancelFunction idx)
          = .error .invalidInstructionData := by
  refine ⟨cancelStep_out_of_range h, fun account clockNow hload => ?_⟩
  simp only [dispatch, hload, cancelStep_out_of_range h]

/-- Claim C6 witness: index 0 on the empty queue is out of range. -/
theorem C6_witness :
    cancelStep keyA 0 stE = .error .invalidInstructionData
    ∧ dispatch accE 0 (.CancelFunction 0) = .error .invalidInstructionData := by
  have h := C6_cancel_out_of_range keyA 0 stE (by decide)
  exact ⟨h.1, h.2 accE 0 rfl⟩

/-- Claim C7: for an in-range index whose entry the caller is authorized
to cancel, cancelling twice yields the same state as cancelling once
(cancelling an already-cancelled entry is a no-op success), and the
entry is not removed: the queue length is preserved. -/
theorem C7_cancel_idempotent (key : Pubkey) (idx : Nat) (s : ContractState)
    (h : idx < s.queued_functions.length)
    (hauth : key = (s.queued_functions[idx]).initiator ∨
      some key = (s.queued_functions[idx]).delegate) :
    (cancelStep key idx s).bind (cancelStep key idx) = cancelStep key idx s
    ∧ (cancelStep key idx s).map (fun s2 => s2.queued_functions.length)
      = .ok s.queued_functions.length := by
  obtain ⟨l, d⟩ := s
  have h1 : idx < l.length := h
  have hfirst := cancelStep_ok (d := d) h1 rfl hauth
  have h2 : idx < (l.set idx { l[idx] with cancelled := true }).length := by
    rw [List.length_set]; exact h1
  have hsecond := cancelStep_ok (d := d) h2 (List.getElem_set_self h2) hauth
  constructor
  · rw [hfirst]
    show cancelStep key idx _ = _
    rw [hsecond, List.set_set]
  · rw [hfirst]
    simp [Except.map, List.length_set]

/-- Claim C7 witness: the initiator `keyA` cancels its own entry;
cancelling twice equals cancelling once. -/
theorem C7_witness :
    (cancelStep keyA 0 stA).bind (cancelStep keyA 0) = cancelStep keyA 0 stA :=
  (C7_cancel_idempotent keyA 0 stA (by decide) (Or.inl (by decide))).1

/-- Claim C8: refuted by evaluation — instruction decoding does NOT
totally return a command or a decode error.  The payload `[3]`
(`SetDelegate` tag with no key bytes) makes the source evaluate
`&rest[0..32]` on an empty slice, a panic, not a decode error; likewise
`[0, 1]` (a queue instruction whose function decodes but whose remainder
is shorter than 8 bytes) panics on `rest[rest.len() - 8..]`. -/
theorem C8_unpack_crash :
    Instruction.unpack [3] = .error .rustPanic
    ∧ Instruction.unpack [0, 1] = .error .rustPanic :=
  ⟨rfl, rfl⟩

/-- Claim C9 counterexample: with zero-length account data, the
`CancelFunction` and `SetDelegate` operations do NOT see an empty
`ContractState`; their unconditional `try_from_slice` fails with the
decode error, so the claim "every operation that loads state returns an
empty state on zero-length data" is false. -/
theorem C9_counterexample :
    accEmpty.data.length = 0
    ∧ dispatch accEmpty 0 (.CancelFunction 0) = .error .borshIoError
    ∧ dispatch accEmpty 0 (.SetDelegate keyD) = .error .borshIoError :=
  ⟨rfl, rfl, rfl⟩

/-- Claim C9 (amended): only the queue operation treats a zero-length
account as the empty state; `CancelFunction` (and `SetDelegate`,
`CheckExecution`) deserialize the stored bytes unconditionally, so on a
zero-length account they fail with the decode error. -/
theorem C9_load_zero_length_split (account : AccountInfo)
    (h : account.data.length = 0) :
    loadForQueue account = .ok emptyState
    ∧ ContractState.try_from_slice account.data = .error .borshIoError
    ∧ (∀ clockNow idx, dispatch account clockNow (.CancelFunction idx)
        = .error .borshIoError)
    ∧ (∀ clockNow k, dispatch account clockNow (.SetDelegate k)
        = .error .borshIoError) := by
  have hdata : account.data = [] := List.eq_nil_of_length_eq_zero h
  have htfs : ContractState.try_from_slice account.data = .error .borshIoError := by
    rw [hdata]; rfl
  refine ⟨?_, htfs, fun clockNow idx => ?_, fun clockNow k => ?_⟩
  · rw [loadForQueue, if_neg (by omega)]
  · simp only [dispatch, htfs]
  · simp only [dispatch, htfs]

/-- Claim C9 witness: the split behavior evaluated on the zero-length
account `accEmpty`. -/
theorem C9_witness :
    loadForQueue accEmpty = .ok emptyState
    ∧ ContractState.try_from_slice accEmpty.data = .error .borshIoError := by
  have h := C9_load_zero_length_split accEmpty rfl
  exact ⟨h.1, h.2.1⟩

/-- Claim C10 counterexample: save does NOT fully overwrite longer prior
content.  Starting from `accA` (48 stored bytes, one due entry), the
sweep at time 200 removes the entry and writes the 5-byte serialization
of the empty state over the front of the buffer only; the subsequent
load of the same account fails with the decode error instead of
returning the saved state. -/
theorem C10_counterexample :
    (dispatch accA 200 .CheckExecution).map
      (fun a => ContractState.try_from_slice a.data)
      = .ok (.error .borshIoError) :=
  rfl

/-- Claim C10 (amended): `deserialize(serialize(state)) = state` holds
for every well-formed state when the deserializer is applied to exactly
the serialized bytes; but the save step overwrites only the
serialized-length prefix of the account buffer, leaving any longer prior
content in place after it, so a load after a shrinking save fails on the
stale trailing bytes. -/
theorem C10_roundtrip_and_prefix_save (s : ContractState) (account : AccountInfo)
    (hwf : wfContractState s = true)
    (hfit : (serContractState s).length ≤ account.data.length) :
    ContractState.try_from_slice (serContractState s) = .ok s
    ∧ saveInto account s = .ok ⟨account.key,
        serContractState s ++ account.data.drop (serContractState s).length⟩ := by
  refine ⟨try_from_slice_serContractState hwf, ?_⟩
  rw [saveInto, if_pos hfit]

/-- Claim C10 witness: the round trip evaluated on the concrete state
`stA`. -/
theorem C10_witness :
    wfContractState stA = true
    ∧ ContractState.try_from_slice (serContractState stA) = .ok stA :=
  ⟨rfl, (C10_roundtrip_and_prefix_save stA accA rfl (by decide)).1⟩

end DDef
